import Mathlib

/-!
# UART character driver: embedding of `UART_Driver/uart_driver.c`

The driver is sequential C over three kinds of state: the memory-mapped
register block behind `uart_base`, the caller's user memory, and the driver's
globals (`uart_lock`, `last_msg`).  Each entry point is embedded as a pure
function that threads these states explicitly and returns, next to the C return
value, the ordered list of externally visible events it performed.

The busy-wait loops take a `fuel` argument: the number of status polls the
model is allowed to perform.  A call that is still spinning when the fuel is
used up reports `ret = none` together with the state reached so far.
-/

set_option linter.unusedVariables false

namespace UartDriver

/-! ## Constants -/

/-- Errno value `EFAULT`. -/
def EFAULT : Int := 14
/-- Errno value `EINVAL`. -/
def EINVAL : Int := 22
/-- Errno value `ENOMEM`. -/
def ENOMEM : Int := 12

/-- Kernel helper `_IO(type, nr)`, that is `_IOC(_IOC_NONE, type, nr, 0)` with
`_IOC_NONE = 0`: direction in bits 30-31, size in bits 16-29, type in bits 8-15,
number in bits 0-7. -/
def _IO (type nr : Nat) : Nat := (0 <<< 30) ||| (type <<< 8) ||| (nr <<< 0) ||| (0 <<< 16)

/-- Source: `#define IOCTL_M 'u'`. -/
def IOCTL_M : Nat := 'u'.toNat

/-- Source: `#define UART_IOCTL_RESET _IO(IOCTL_M, 0)`. -/
def UART_IOCTL_RESET : Nat := _IO IOCTL_M 0

/-- Kernel constant `PAGE_SIZE` (smallest supported page size). -/
def PAGE_SIZE : Nat := 4096

/-! ## Register block -/

/-- The register block mapped at `uart_base`, as seen through `readl` and
`writel`.  Registers are volatile: a read returns a value and a possibly changed
hardware state; a write of `val` at byte offset `off` changes the hardware
state. -/
structure Device (σ : Type) where
  readl : σ → Nat → Nat × σ
  writel : σ → Nat → Nat → σ

/-! ## Events -/

/-- The `printk` call sites of the driver, one constructor per call site. -/
inductive Printk where
  | read_attempting
  | read_acquired
  | read_released
  | write_attempting
  | write_acquired
  | write_after_unlock
  deriving DecidableEq, Repr

/-- Externally visible actions of the entry points, in program order. -/
inductive Event where
  | printk (m : Printk)
  | spin_lock_irqsave
  | spin_unlock_irqrestore
  | readl (off val : Nat)
  | writel (val off : Nat)
  | copy_to_user (addr byte : Nat) (ok : Bool)
  | copy_from_user (addr : Nat) (ok : Bool)
  | snprintf_last_msg
  deriving DecidableEq, Repr

/-! ## User memory -/

/-- User address space: `some b` at an accessible address holding byte `b`,
`none` at an address whose access faults. -/
abbrev UserMem := Nat → Option Nat

/-- One-byte `copy_from_user(&ch, buf, 1)`: the byte, or `none` on a fault. -/
def copy_from_user (um : UserMem) (buf : Nat) : Option Nat := um buf

/-- One-byte `copy_to_user(buf, &ch, 1)`: the updated user memory, or `none` on a
fault. -/
def copy_to_user (um : UserMem) (buf ch : Nat) : Option UserMem :=
  match um buf with
  | none => none
  | some _ => some (Function.update um buf (some ch))

/-! ## Diagnostic record -/

/-- ASCII codes of a string literal. -/
def ascii (s : String) : List Nat := s.toList.map Char.toNat

/-- Kernel `snprintf(buf, size, ...)` for an already formatted `text`: at most
`size - 1` bytes of `text` are stored, followed by a NUL; the rest of `buf`
keeps its bytes. -/
def snprintf (buf : List Nat) (size : Nat) (text : List Nat) : List Nat :=
  if size = 0 then buf
  else
    let w := text.take (size - 1) ++ [0]
    w ++ buf.drop w.length

/-- The C string stored in a buffer: the bytes before the first NUL. -/
def cstr (buf : List Nat) : List Nat := buf.takeWhile (fun b => b != 0)

/-- Source: `static char last_msg[100] = "No messages.";` (zero filled). -/
def last_msg_init : List Nat := ascii "No messages." ++ List.replicate 88 0

/-! ## Driver state -/

/-- Driver globals together with the state of the mapped register block. -/
structure Driver (σ : Type) where
  hw : σ
  uart_lock : Bool
  last_msg : List Nat

/-- State right after module load, over hardware state `h`. -/
def Driver.init {σ : Type} (h : σ) : Driver σ :=
  { hw := h, uart_lock := false, last_msg := last_msg_init }

/-- Result of `uart_read` / `uart_write`.  `ret = none` means that the call has
not returned within the given fuel. -/
structure Outcome (σ : Type) where
  ret : Option Int
  st : Driver σ
  um : UserMem
  events : List Event

/-- Result of `uart_ioctl`. -/
structure IoctlOutcome (σ : Type) where
  ret : Int
  st : Driver σ
  events : List Event

/-- Result of a busy-wait loop: whether it left the loop, the hardware state, and
the status reads performed. -/
structure SpinResult (σ : Type) where
  done : Bool
  hw : σ
  events : List Event

/-- Busy-wait loop `while (busy(readl(uart_base + 0x18))) cpu_relax();` with at
most `fuel` status polls. -/
def spin {σ : Type} (D : Device σ) (busy : Nat → Bool) : Nat → σ → SpinResult σ
  | 0, h => ⟨false, h, []⟩
  | fuel + 1, h =>
    let r := D.readl h 0x18
    if busy r.1 then
      let t := spin D busy fuel r.2
      ⟨t.done, t.hw, Event.readl 0x18 r.1 :: t.events⟩
    else ⟨true, r.2, [Event.readl 0x18 r.1]⟩

/-- Loop condition of `uart_read`: `!(readl(uart_base + 0x18) & 0x10)`. -/
def rx_wait (v : Nat) : Bool := v &&& 0x10 == 0

/-- Loop condition of `uart_write`: `readl(uart_base + 0x18) & 0x20`. -/
def tx_wait (v : Nat) : Bool := v &&& 0x20 != 0

/-- Conversion of `char ch` to the `u32` argument of `writel`: the value itself
for an unsigned `char`, sign extension to 32 bits for a signed `char`.  The
signedness of plain `char` is fixed by the compiler; kernels that provide the
one-argument `class_create` used by `uart_init` are built with
`-funsigned-char`, so the module itself runs with `char_signed = false`. -/
def char_to_u32 (char_signed : Bool) (ch : Nat) : Nat :=
  if char_signed && decide (128 ≤ ch) then ch + 0xFFFFFF00 else ch

/-- Source: `uart_read` (uart_driver.c, lines 32-47). -/
def uart_read {σ : Type} (D : Device σ) (fuel : Nat) (s : Driver σ) (um : UserMem)
    (buf len : Nat) : Outcome σ :=
  let e0 := [Event.printk .read_attempting]
  if s.uart_lock then ⟨none, s, um, e0⟩
  else
    let e1 := e0 ++ [Event.spin_lock_irqsave, Event.printk .read_acquired]
    let w := spin D rx_wait fuel s.hw
    if w.done then
      let r := D.readl w.hw 0x00
      let ch := r.1 &&& 0xFF
      let e2 := e1 ++ w.events ++
        [Event.readl 0x00 r.1, Event.spin_unlock_irqrestore, Event.printk .read_released]
      match copy_to_user um buf ch with
      | none =>
        ⟨some (-EFAULT), { hw := r.2, uart_lock := false, last_msg := s.last_msg }, um,
          e2 ++ [Event.copy_to_user buf ch false]⟩
      | some um2 =>
        ⟨some 1,
          { hw := r.2, uart_lock := false,
            last_msg := snprintf s.last_msg 100 (ascii "Read char: " ++ [ch]) },
          um2, e2 ++ [Event.copy_to_user buf ch true, Event.snprintf_last_msg]⟩
    else ⟨none, { hw := w.hw, uart_lock := true, last_msg := s.last_msg }, um, e1 ++ w.events⟩

/-- Source: `uart_write` (uart_driver.c, lines 50-65). -/
def uart_write {σ : Type} (D : Device σ) (char_signed : Bool) (fuel : Nat) (s : Driver σ)
    (um : UserMem) (buf len : Nat) : Outcome σ :=
  match copy_from_user um buf with
  | none => ⟨some (-EFAULT), s, um, [Event.copy_from_user buf false]⟩
  | some ch =>
    let e0 := [Event.copy_from_user buf true, Event.printk .write_attempting]
    if s.uart_lock then ⟨none, s, um, e0⟩
    else
      let e1 := e0 ++ [Event.spin_lock_irqsave, Event.printk .write_acquired]
      let w := spin D tx_wait fuel s.hw
      if w.done then
        let v := char_to_u32 char_signed ch
        ⟨some 1,
          { hw := D.writel w.hw v 0x00, uart_lock := false,
            last_msg := snprintf s.last_msg 100 (ascii "Wrote char: " ++ [ch]) },
          um,
          e1 ++ w.events ++
            [Event.writel v 0x00, Event.spin_unlock_irqrestore,
             Event.printk .write_after_unlock, Event.snprintf_last_msg]⟩
      else
        ⟨none, { hw := w.hw, uart_lock := true, last_msg := s.last_msg }, um, e1 ++ w.events⟩

/-- Source: `uart_ioctl` (uart_driver.c, lines 68-79). -/
def uart_ioctl {σ : Type} (D : Device σ) (s : Driver σ) (cmd arg : Nat) : IoctlOutcome σ :=
  if cmd = UART_IOCTL_RESET then
    let h1 := D.writel s.hw 0 0x30
    let h2 := D.writel h1 0x301 0x30
    ⟨0, { hw := h2, uart_lock := s.uart_lock,
          last_msg := snprintf s.last_msg 100 (ascii "UART reset performed.") },
      [Event.writel 0 0x30, Event.writel 0x301 0x30, Event.snprintf_last_msg]⟩
  else ⟨-EINVAL, s, []⟩

/-- Source: `log_show` (uart_driver.c, lines 103-105),
`snprintf(buf, PAGE_SIZE, "%s\n", last_msg)`: the return value and the text
placed in `buf`. -/
def log_show {σ : Type} (s : Driver σ) : Int × List Nat :=
  let text := cstr s.last_msg ++ [10]
  ((text.length : Int), text.take (PAGE_SIZE - 1))

/-! ## Module load -/

/-- Resources that `uart_init` obtains from the host, in order of acquisition. -/
inductive Resource where
  | chrdev_region
  | cdev
  | uart_class
  | uart_device
  | attr_log
  | mapping
  deriving DecidableEq, Repr

/-- Results of the host calls made during module load: the integer return
values, the returned pointers of `class_create` and `device_create` read as
signed words, and the address returned by `ioremap` (0 is NULL). -/
structure Host where
  alloc_chrdev_region : Int
  cdev_add : Int
  class_create : Int
  device_create : Int
  device_create_file : Int
  ioremap : Nat

/-- Kernel `IS_ERR`: the pointer lies in the last `MAX_ERRNO = 4095` addresses. -/
def IS_ERR (p : Int) : Bool := decide (-4095 ≤ p ∧ p < 0)

/-- Kernel `PTR_ERR`: the pointer as a signed word. -/
def PTR_ERR (p : Int) : Int := p

/-- Result of `uart_init`: return value, resources held on return, driver state. -/
structure InitOutcome (σ : Type) where
  ret : Int
  held : List Resource
  st : Driver σ

/-- Source: `uart_init` (uart_driver.c, lines 109-135).  `held` lists the
resources held when the function is entered. -/
def uart_init {σ : Type} (D : Device σ) (host : Host) (held : List Resource)
    (s : Driver σ) : InitOutcome σ :=
  if host.alloc_chrdev_region < 0 then ⟨-1, held, s⟩
  else
    let r1 := held ++ [Resource.chrdev_region]
    if host.cdev_add < 0 then ⟨-1, r1, s⟩
    else
      let r2 := r1 ++ [Resource.cdev]
      if IS_ERR host.class_create then ⟨PTR_ERR host.class_create, r2, s⟩
      else
        let r3 := r2 ++ [Resource.uart_class]
        if IS_ERR host.device_create then ⟨PTR_ERR host.device_create, r3, s⟩
        else
          let r4 := r3 ++ [Resource.uart_device]
          if host.device_create_file ≠ 0 then ⟨-1, r4, s⟩
          else
            let r5 := r4 ++ [Resource.attr_log]
            if host.ioremap = 0 then ⟨-ENOMEM, r5, s⟩
            else
              let h1 := D.writel s.hw 0 0x30
              let h2 := D.writel h1 0x301 0x30
              ⟨0, r5 ++ [Resource.mapping],
                { hw := h2, uart_lock := false, last_msg := s.last_msg }⟩

/-- Source: `my_driver_init` (kernel_driver.c, lines 37-50), the load function of
the sibling driver: the return value and the resources held on return.  On a
`cdev_add` result of -1 it calls `unregister_chrdev_region`, giving back the
region acquired last.  Every other result makes it return 0; the cdev is held
only when `cdev_add` did not fail (a negative result other than -1 leaves the
region alone). -/
def my_driver_init (host : Host) (held : List Resource) : Int × List Resource :=
  if host.alloc_chrdev_region < 0 then (-1, held)
  else
    let r1 := held ++ [Resource.chrdev_region]
    if host.cdev_add = -1 then (-1, r1.dropLast)
    else if host.cdev_add < 0 then (0, r1)
    else (0, r1 ++ [Resource.cdev])

/-! ## Concrete register blocks -/

/-- Memory-backed register block: every offset stores the last 32-bit word
written to it and a read returns the stored word.  With the status word at
offset 0x18 fixed, this is the loop-back fixture: the data register returns the
last word written to it. -/
def regfile : Device (Nat → Nat) where
  readl h off := (h off, h)
  writel h val off := Function.update h off (val % 2 ^ 32)

/-- State of the scripted register block. -/
structure Script where
  status : List Nat
  data : Nat
  written : List (Nat × Nat)
  deriving DecidableEq, Repr

/-- Scripted register block: successive reads of the status register (0x18)
return the entries of `status` in turn (0 when none is left), the data register
(0x00) reads as `data`, and every write is recorded as (value, offset). -/
def scripted : Device Script where
  readl h off :=
    if off = 0x18 then (h.status.headD 0, { h with status := h.status.tail })
    else if off = 0x00 then (h.data, h)
    else (0, h)
  writel h val off := { h with written := h.written ++ [(val, off)] }

/-! ## Status polls, as seen from outside -/

/-- Hardware state after `n` reads of the status register. -/
def pollSt {σ : Type} (D : Device σ) : Nat → σ → σ
  | 0, h => h
  | n + 1, h => pollSt D n (D.readl h 0x18).2

/-- Value returned by the status read that follows `n` earlier status reads. -/
def pollVal {σ : Type} (D : Device σ) (n : Nat) (h : σ) : Nat :=
  (D.readl (pollSt D n h) 0x18).1

/-- Events of the first `n` status reads. -/
def pollTrace {σ : Type} (D : Device σ) : Nat → σ → List Event
  | 0, _ => []
  | n + 1, h => Event.readl 0x18 (D.readl h 0x18).1 :: pollTrace D n (D.readl h 0x18).2

/-- Events performed while the lock is held: everything between a
`spin_lock_irqsave` and the next `spin_unlock_irqrestore` (or the end of the
trace when the lock is not released).  The flag tells whether the lock is held
at the start of the trace. -/
def heldEvents : Bool → List Event → List Event
  | _, [] => []
  | _, Event.spin_lock_irqsave :: t => heldEvents true t
  | _, Event.spin_unlock_irqrestore :: t => heldEvents false t
  | held, e :: t => if held then e :: heldEvents held t else heldEvents held t

/-- Logging events: `printk` and the update of the diagnostic record. -/
def isLog : Event → Bool
  | Event.printk _ => true
  | Event.snprintf_last_msg => true
  | _ => false

/-- User-memory copies. -/
def isUserCopy : Event → Bool
  | Event.copy_to_user _ _ _ => true
  | Event.copy_from_user _ _ => true
  | _ => false

/-! ## Data used in the concrete instances -/

/-- Scripted hardware: the first two status polls return 0x20 (transmit busy, no
receive data), the third returns 0x10 (receive data available, transmitter
idle); the data register reads as 0x141. -/
def demoScript : Script := ⟨[0x20, 0x20, 0x10], 0x141, []⟩

/-- User memory with the single accessible byte 'A' at address 7. -/
def demoMem : UserMem := fun a => if a = 7 then some 65 else none

/-- Loop-back fixture: status word 0x10, all other registers 0. -/
def loopbackRegs : Nat → Nat := fun off => if off = 0x18 then 0x10 else 0

/-- User memory with byte 200 at address 7 and byte 0 at address 9. -/
def loopbackMem : UserMem := fun a => if a = 7 then some 200 else if a = 9 then some 0 else none

/-- Host in which `alloc_chrdev_region` succeeds and `cdev_add` fails with
`-ENOMEM`. -/
def hostCdevAddFails : Host :=
  { alloc_chrdev_region := 0, cdev_add := -12, class_create := 0x1000,
    device_create := 0x2000, device_create_file := 0, ioremap := 0x3000 }

/-! ## Auxiliary lemmas -/

theorem spin_done {σ : Type} (D : Device σ) (busy : Nat → Bool) (k : Nat) :
    ∀ (fuel : Nat) (h : σ), (∀ m, m < k → busy (pollVal D m h) = true) →
      busy (pollVal D k h) = false → k < fuel →
      spin D busy fuel h = ⟨true, pollSt D (k + 1) h, pollTrace D (k + 1) h⟩ := by
  induction k with
  | zero =>
    intro fuel h _ hk hf
    obtain ⟨f, rfl⟩ : ∃ f, fuel = f + 1 := ⟨fuel - 1, by omega⟩
    simp only [pollVal, pollSt] at hk
    simp [spin, hk, pollSt, pollTrace]
  | succ k ih =>
    intro fuel h hb hk hf
    obtain ⟨f, rfl⟩ : ∃ f, fuel = f + 1 := ⟨fuel - 1, by omega⟩
    have h0 : busy (D.readl h 0x18).1 = true := by
      have := hb 0 (by omega)
      simpa [pollVal, pollSt] using this
    have ih2 := ih f (D.readl h 0x18).2
      (fun m hm => by
        have := hb (m + 1) (by omega)
        simpa [pollVal, pollSt] using this)
      (by simpa [pollVal, pollSt] using hk) (by omega)
    rw [spin]
    simp only [h0, if_true, ih2]
    simp [pollSt, pollTrace]

theorem spin_events_polls {σ : Type} (D : Device σ) (busy : Nat → Bool) :
    ∀ (fuel : Nat) (h : σ), ∀ e ∈ (spin D busy fuel h).events, ∃ v, e = Event.readl 0x18 v := by
  intro fuel
  induction fuel with
  | zero => intro h e he; simp [spin] at he
  | succ f ih =>
    intro h e he
    rw [spin] at he
    by_cases hb : busy (D.readl h 0x18).1 = true
    · simp only [hb, if_true, List.mem_cons] at he
      rcases he with he | he
      · exact ⟨_, he⟩
      · exact ih _ e he
    · simp only [hb, List.mem_singleton] at he
      exact ⟨_, by simpa using he⟩

theorem pollTrace_eq_map {σ : Type} (D : Device σ) :
    ∀ (n : Nat) (h : σ),
      pollTrace D n h = (List.range n).map (fun i => Event.readl 0x18 (pollVal D i h)) := by
  intro n
  induction n with
  | zero => intro h; simp [pollTrace]
  | succ n ih =>
    intro h
    rw [pollTrace, ih, List.range_succ_eq_map]
    simp [pollVal, pollSt, Function.comp_def]

theorem heldEvents_polls (l r : List Event) (hl : ∀ e ∈ l, ∃ v, e = Event.readl 0x18 v) :
    heldEvents true (l ++ r) = l ++ heldEvents true r := by
  induction l with
  | nil => simp
  | cons a t ih =>
    obtain ⟨v, rfl⟩ := hl a (by simp)
    have := ih (fun e he => hl e (by simp [he]))
    simp [heldEvents, this]

theorem and_255_char_to_u32 (cs : Bool) (b : Nat) (hb : b < 256) :
    (char_to_u32 cs b % 2 ^ 32) &&& 0xFF = b := by
  have h : ∀ x : Nat, x &&& 0xFF = x % 256 := fun x => Nat.and_pow_two_sub_one_eq_mod x 8
  rw [h]
  unfold char_to_u32
  split <;> omega

theorem snprintf_idem (buf text : List Nat) (size : Nat) :
    snprintf (snprintf buf size text) size text = snprintf buf size text := by
  unfold snprintf
  split
  · rfl
  · have h : ∀ (w x : List Nat), w ++ List.drop w.length (w ++ x) = w ++ x := by
      intro w x
      rw [List.drop_left]
    exact h _ _

theorem exists_first_poll (p : Nat → Prop) [DecidablePred p] (h : ∃ n, p n) :
    ∃ k, p k ∧ ∀ m, m < k → ¬ p m :=
  ⟨Nat.find h, Nat.find_spec h, fun _ hm => Nat.find_min h hm⟩

theorem uart_read_ok {σ : Type} (D : Device σ) (s : Driver σ) (um : UserMem)
    (buf len k fuel x : Nat) (hlock : s.uart_lock = false) (hacc : um buf = some x)
    (hwait : ∀ m, m < k → pollVal D m s.hw &&& 0x10 = 0)
    (hrdy : pollVal D k s.hw &&& 0x10 ≠ 0) (hf : k < fuel) :
    uart_read D fuel s um buf len =
      ⟨some 1,
        { hw := (D.readl (pollSt D (k + 1) s.hw) 0x00).2, uart_lock := false,
          last_msg := snprintf s.last_msg 100
            (ascii "Read char: " ++ [(D.readl (pollSt D (k + 1) s.hw) 0x00).1 &&& 0xFF]) },
        Function.update um buf (some ((D.readl (pollSt D (k + 1) s.hw) 0x00).1 &&& 0xFF)),
        [Event.printk .read_attempting, Event.spin_lock_irqsave, Event.printk .read_acquired]
          ++ pollTrace D (k + 1) s.hw ++
          [Event.readl 0x00 (D.readl (pollSt D (k + 1) s.hw) 0x00).1,
           Event.spin_unlock_irqrestore, Event.printk .read_released,
           Event.copy_to_user buf ((D.readl (pollSt D (k + 1) s.hw) 0x00).1 &&& 0xFF) true,
           Event.snprintf_last_msg]⟩ := by
  have hs := spin_done D rx_wait k fuel s.hw
    (fun m hm => by simp [rx_wait, hwait m hm]) (by simp [rx_wait, hrdy]) hf
  simp [uart_read, hlock, hs, copy_to_user, hacc]

theorem uart_write_ok {σ : Type} (D : Device σ) (cs : Bool) (s : Driver σ) (um : UserMem)
    (buf len k fuel b : Nat) (hlock : s.uart_lock = false) (hsrc : um buf = some b)
    (hwait : ∀ m, m < k → pollVal D m s.hw &&& 0x20 ≠ 0)
    (hrdy : pollVal D k s.hw &&& 0x20 = 0) (hf : k < fuel) :
    uart_write D cs fuel s um buf len =
      ⟨some 1,
        { hw := D.writel (pollSt D (k + 1) s.hw) (char_to_u32 cs b) 0x00, uart_lock := false,
          last_msg := snprintf s.last_msg 100 (ascii "Wrote char: " ++ [b]) },
        um,
        [Event.copy_from_user buf true, Event.printk .write_attempting,
         Event.spin_lock_irqsave, Event.printk .write_acquired]
          ++ pollTrace D (k + 1) s.hw ++
          [Event.writel (char_to_u32 cs b) 0x00, Event.spin_unlock_irqrestore,
           Event.printk .write_after_unlock, Event.snprintf_last_msg]⟩ := by
  have hs := spin_done D tx_wait k fuel s.hw
    (fun m hm => by simp [tx_wait, hwait m hm]) (by simp [tx_wait, hrdy]) hf
  simp [uart_write, hlock, hs, copy_from_user, hsrc]

/-! ## C1: read of one byte -/

/-- C1: whenever the lock is free on entry, the destination is accessible and
some status poll eventually shows bit 0x10, there is a first such poll `k`; with
enough fuel for `k + 1` polls `uart_read` returns 1 for every requested `len`,
stores exactly one byte at `buf`, namely the data register word masked with 0xFF,
and the data register is read right after the poll that showed the bit. -/
theorem uart_read_returns_one {σ : Type} (D : Device σ) (s : Driver σ) (um : UserMem)
    (buf len : Nat) (hlock : s.uart_lock = false) (hacc : um buf ≠ none)
    (hev : ∃ n, pollVal D n s.hw &&& 0x10 ≠ 0) :
    ∃ k, pollVal D k s.hw &&& 0x10 ≠ 0 ∧ (∀ m, m < k → pollVal D m s.hw &&& 0x10 = 0) ∧
      ∀ fuel, k < fuel →
        (uart_read D fuel s um buf len).ret = some 1 ∧
        (uart_read D fuel s um buf len).um =
          Function.update um buf (some ((D.readl (pollSt D (k + 1) s.hw) 0x00).1 &&& 0xFF)) ∧
        (uart_read D fuel s um buf len).events =
          [Event.printk .read_attempting, Event.spin_lock_irqsave, Event.printk .read_acquired]
            ++ pollTrace D (k + 1) s.hw ++
            [Event.readl 0x00 (D.readl (pollSt D (k + 1) s.hw) 0x00).1,
             Event.spin_unlock_irqrestore, Event.printk .read_released,
             Event.copy_to_user buf ((D.readl (pollSt D (k + 1) s.hw) 0x00).1 &&& 0xFF) true,
             Event.snprintf_last_msg] := by
  obtain ⟨k, hk, hmin⟩ := exists_first_poll (fun n => pollVal D n s.hw &&& 0x10 ≠ 0) hev
  have hwait : ∀ m, m < k → pollVal D m s.hw &&& 0x10 = 0 := fun m hm => by
    simpa using hmin m hm
  obtain ⟨x, hx⟩ := Option.ne_none_iff_exists'.mp hacc
  refine ⟨k, hk, hwait, fun fuel hf => ?_⟩
  rw [uart_read_ok D s um buf len k fuel x hlock hx hwait hk hf]
  exact ⟨rfl, rfl, rfl⟩

/-- Instance of C1 on the scripted hardware: third poll ready, `len = 0`. -/
theorem uart_read_returns_one_witness :
    (Driver.init demoScript).uart_lock = false ∧ demoMem 7 ≠ none ∧
    (∃ n, pollVal scripted n (Driver.init demoScript).hw &&& 0x10 ≠ 0) ∧
    ∃ k, pollVal scripted k (Driver.init demoScript).hw &&& 0x10 ≠ 0 ∧
      (∀ m, m < k → pollVal scripted m (Driver.init demoScript).hw &&& 0x10 = 0) ∧
      ∀ fuel, k < fuel →
        (uart_read scripted fuel (Driver.init demoScript) demoMem 7 0).ret = some 1 ∧
        (uart_read scripted fuel (Driver.init demoScript) demoMem 7 0).um =
          Function.update demoMem 7
            (some ((scripted.readl (pollSt scripted (k + 1) (Driver.init demoScript).hw) 0x00).1
              &&& 0xFF)) ∧
        (uart_read scripted fuel (Driver.init demoScript) demoMem 7 0).events =
          [Event.printk .read_attempting, Event.spin_lock_irqsave, Event.printk .read_acquired]
            ++ pollTrace scripted (k + 1) (Driver.init demoScript).hw ++
            [Event.readl 0x00
               (scripted.readl (pollSt scripted (k + 1) (Driver.init demoScript).hw) 0x00).1,
             Event.spin_unlock_irqrestore, Event.printk .read_released,
             Event.copy_to_user 7
               ((scripted.readl (pollSt scripted (k + 1) (Driver.init demoScript).hw) 0x00).1
                 &&& 0xFF) true,
             Event.snprintf_last_msg] :=
  ⟨rfl, by decide, ⟨2, by decide⟩,
    uart_read_returns_one scripted (Driver.init demoScript) demoMem 7 0 rfl (by decide)
      ⟨2, by decide⟩⟩

/-! ## C2: write of one byte -/

/-- C2: let the successive status polls return the values `busy ++ [last]`, where
every value of `busy` has bit 0x20 set and `last` has it clear.  With the lock
free on entry and a readable source whose first byte is `b`, `uart_write` (with
enough fuel for these polls, for every `len`) returns 1; its trace is the copy of
one byte, the polls, then the only register write, `b` at offset 0x00, issued
right after the last poll; user memory is unchanged and the outcome does not
depend on any user byte other than the one at `buf`. -/
theorem uart_write_returns_one {σ : Type} (D : Device σ) (s : Driver σ) (um : UserMem)
    (buf len b : Nat) (busy : List Nat) (last : Nat)
    (hlock : s.uart_lock = false) (hsrc : um buf = some b)
    (hseq : (List.range (busy.length + 1)).map (fun i => pollVal D i s.hw) = busy ++ [last])
    (hbusy : ∀ v ∈ busy, v &&& 0x20 ≠ 0) (hlast : last &&& 0x20 = 0) :
    ∀ fuel, busy.length < fuel →
      (uart_write D false fuel s um buf len).ret = some 1 ∧
      (uart_write D false fuel s um buf len).events =
        [Event.copy_from_user buf true, Event.printk .write_attempting,
         Event.spin_lock_irqsave, Event.printk .write_acquired]
          ++ (busy ++ [last]).map (fun v => Event.readl 0x18 v) ++
          [Event.writel b 0x00, Event.spin_unlock_irqrestore,
           Event.printk .write_after_unlock, Event.snprintf_last_msg] ∧
      (uart_write D false fuel s um buf len).st.hw =
        D.writel (pollSt D (busy.length + 1) s.hw) b 0x00 ∧
      (uart_write D false fuel s um buf len).um = um ∧
      ∀ um2 : UserMem, um2 buf = um buf →
        (uart_write D false fuel s um2 buf len).ret = (uart_write D false fuel s um buf len).ret ∧
        (uart_write D false fuel s um2 buf len).st = (uart_write D false fuel s um buf len).st ∧
        (uart_write D false fuel s um2 buf len).events =
          (uart_write D false fuel s um buf len).events := by
  intro fuel hf
  have hget : ∀ i, i < busy.length + 1 → (busy ++ [last])[i]? = some (pollVal D i s.hw) := by
    intro i hi
    rw [← hseq]
    simp [hi]
  have hwait : ∀ m, m < busy.length → pollVal D m s.hw &&& 0x20 ≠ 0 := by
    intro m hm
    have h1 := hget m (by omega)
    rw [List.getElem?_append_left hm, List.getElem?_eq_getElem hm] at h1
    have h2 : busy[m] = pollVal D m s.hw := by simpa using h1
    rw [← h2]
    exact hbusy _ (List.getElem_mem hm)
  have hrdy : pollVal D busy.length s.hw &&& 0x20 = 0 := by
    have h1 := hget busy.length (by omega)
    have h2 : last = pollVal D busy.length s.hw := by simpa using h1
    rw [← h2]
    exact hlast
  have htrace : pollTrace D (busy.length + 1) s.hw
      = (busy ++ [last]).map (fun v => Event.readl 0x18 v) := by
    rw [pollTrace_eq_map, ← hseq, List.map_map]
    rfl
  have hct : char_to_u32 false b = b := by simp [char_to_u32]
  have e1 := uart_write_ok D false s um buf len busy.length fuel b hlock hsrc hwait hrdy hf
  rw [hct, htrace] at e1
  refine ⟨by rw [e1], by rw [e1], by rw [e1], by rw [e1], fun um2 h2 => ?_⟩
  have e2 := uart_write_ok D false s um2 buf len busy.length fuel b hlock (h2.trans hsrc)
    hwait hrdy hf
  rw [hct, htrace] at e2
  rw [e1, e2]
  exact ⟨rfl, rfl, rfl⟩

/-- Instance of C2 on the scripted hardware: two busy polls, then ready; the
requested length is 5 and the byte written is 'A'. -/
theorem uart_write_returns_one_witness :
    (uart_write scripted false 3 (Driver.init demoScript) demoMem 7 5).ret = some 1 ∧
    (uart_write scripted false 3 (Driver.init demoScript) demoMem 7 5).events =
      [Event.copy_from_user 7 true, Event.printk .write_attempting,
       Event.spin_lock_irqsave, Event.printk .write_acquired]
        ++ ([0x20, 0x20] ++ [0x10]).map (fun v => Event.readl 0x18 v) ++
        [Event.writel 65 0x00, Event.spin_unlock_irqrestore,
         Event.printk .write_after_unlock, Event.snprintf_last_msg] :=
  have h := uart_write_returns_one scripted (Driver.init demoScript) demoMem 7 5 65
    [0x20, 0x20] 0x10 rfl (by decide) (by decide) (by decide) (by decide) 3 (by decide)
  ⟨h.1, h.2.1⟩

/-! ## C3: copy faults -/

/-- C4: for every command code other than `UART_IOCTL_RESET`, every argument and
every driver state, `uart_ioctl` returns `-EINVAL`, performs no event at all (in
particular no register write) and leaves the whole driver state, hardware and
`last_msg` included, as it was. -/
theorem uart_ioctl_unknown {σ : Type} (D : Device σ) (s : Driver σ) (cmd arg : Nat)
    (hcmd : cmd ≠ UART_IOCTL_RESET) :
    (uart_ioctl D s cmd arg).ret = -EINVAL ∧
    (uart_ioctl D s cmd arg).events = [] ∧
    (uart_ioctl D s cmd arg).st = s := by
  simp [uart_ioctl, hcmd]

/-- Instance of C4: command code `_IO('u', 1)` on the scripted hardware. -/
theorem uart_ioctl_unknown_witness :
    _IO IOCTL_M 1 ≠ UART_IOCTL_RESET ∧
    (uart_ioctl scripted (Driver.init demoScript) ( _IO IOCTL_M 1) 0).ret = -22 ∧
    (uart_ioctl scripted (Driver.init demoScript) ( _IO IOCTL_M 1) 0).events = [] ∧
    (uart_ioctl scripted (Driver.init demoScript) ( _IO IOCTL_M 1) 0).st
      = Driver.init demoScript :=
  ⟨by decide, uart_ioctl_unknown scripted (Driver.init demoScript) ( _IO IOCTL_M 1) 0 (by decide)⟩

/-! ## C5: reset -/

/-- C5: in every driver state the Reset command returns 0 and performs exactly
two register writes, 0 and then 0x301, both at offset 0x30.  A second Reset
right after the first returns 0 again, performs the same writes and leaves the
driver globals (`last_msg`, `uart_lock`) as the first left them.  On the
memory-backed register block the control word is 0x301 after the first Reset and
the whole state after two Resets equals the state after one. -/
theorem reset_twice {σ : Type} (D : Device σ) (s : Driver σ) (t : Driver (Nat → Nat))
    (arg arg2 : Nat) :
    (uart_ioctl D s UART_IOCTL_RESET arg).ret = 0 ∧
    (uart_ioctl D s UART_IOCTL_RESET arg).events =
      [Event.writel 0 0x30, Event.writel 0x301 0x30, Event.snprintf_last_msg] ∧
    (uart_ioctl D s UART_IOCTL_RESET arg).st.hw = D.writel (D.writel s.hw 0 0x30) 0x301 0x30 ∧
    (uart_ioctl D (uart_ioctl D s UART_IOCTL_RESET arg).st UART_IOCTL_RESET arg2).ret = 0 ∧
    (uart_ioctl D (uart_ioctl D s UART_IOCTL_RESET arg).st UART_IOCTL_RESET arg2).events =
      [Event.writel 0 0x30, Event.writel 0x301 0x30, Event.snprintf_last_msg] ∧
    (uart_ioctl D (uart_ioctl D s UART_IOCTL_RESET arg).st UART_IOCTL_RESET arg2).st.last_msg =
      (uart_ioctl D s UART_IOCTL_RESET arg).st.last_msg ∧
    (uart_ioctl D (uart_ioctl D s UART_IOCTL_RESET arg).st UART_IOCTL_RESET arg2).st.uart_lock =
      (uart_ioctl D s UART_IOCTL_RESET arg).st.uart_lock ∧
    (uart_ioctl regfile t UART_IOCTL_RESET arg).st.hw 0x30 = 0x301 ∧
    (uart_ioctl regfile (uart_ioctl regfile t UART_IOCTL_RESET arg).st
        UART_IOCTL_RESET arg2).st.hw 0x30 = 0x301 ∧
    (uart_ioctl regfile (uart_ioctl regfile t UART_IOCTL_RESET arg).st
        UART_IOCTL_RESET arg2).st = (uart_ioctl regfile t UART_IOCTL_RESET arg).st := by
  refine ⟨?_, ?_, ?_, ?_, ?_, ?_, ?_, ?_, ?_, ?_⟩
  · simp [uart_ioctl]
  · simp [uart_ioctl]
  · simp [uart_ioctl]
  · simp [uart_ioctl]
  · simp [uart_ioctl]
  · simp [uart_ioctl, snprintf_idem]
  · simp [uart_ioctl]
  · simp [uart_ioctl, regfile]
  · simp [uart_ioctl, regfile]
  · simp [uart_ioctl, regfile, snprintf_idem]

/-! ## C6: loop-back round trip -/

/-- C6: on the memory-backed register block whose status word has "transmit
busy" (0x20) clear and "receive data available" (0x10) set, so that the data
register returns the last word written to it, writing a byte `b < 256` and then
reading delivers `b` to the reader: both calls return 1 and the byte stored at
the destination is `b`, for a signed as well as an unsigned `char`. -/
theorem loopback_round_trip (cs : Bool) (b : Nat) (s : Driver (Nat → Nat)) (um : UserMem)
    (src dst len1 len2 fuel1 fuel2 : Nat) (hb : b < 256) (hlock : s.uart_lock = false)
    (htx : s.hw 0x18 &&& 0x20 = 0) (hrx : s.hw 0x18 &&& 0x10 ≠ 0)
    (hsrc : um src = some b) (hdst : um dst ≠ none) (hf1 : 0 < fuel1) (hf2 : 0 < fuel2) :
    (uart_write regfile cs fuel1 s um src len1).ret = some 1 ∧
    (uart_read regfile fuel2 (uart_write regfile cs fuel1 s um src len1).st
      (uart_write regfile cs fuel1 s um src len1).um dst len2).ret = some 1 ∧
    (uart_read regfile fuel2 (uart_write regfile cs fuel1 s um src len1).st
      (uart_write regfile cs fuel1 s um src len1).um dst len2).um dst = some b ∧
    Event.copy_to_user dst b true ∈
      (uart_read regfile fuel2 (uart_write regfile cs fuel1 s um src len1).st
        (uart_write regfile cs fuel1 s um src len1).um dst len2).events := by
  obtain ⟨x, hx⟩ := Option.ne_none_iff_exists'.mp hdst
  have e1 := uart_write_ok regfile cs s um src len1 0 fuel1 b hlock hsrc
    (fun m hm => absurd hm (Nat.not_lt_zero m)) (by simpa [pollVal, pollSt, regfile] using htx) hf1
  rw [e1]
  have e2 := uart_read_ok regfile
    { hw := regfile.writel (pollSt regfile (0 + 1) s.hw) (char_to_u32 cs b) 0x00,
      uart_lock := false,
      last_msg := snprintf s.last_msg 100 (ascii "Wrote char: " ++ [b]) }
    um dst len2 0 fuel2 x rfl hx
    (fun m hm => absurd hm (Nat.not_lt_zero m))
    (by simpa [pollVal, pollSt, regfile] using hrx) hf2
  have hv : (regfile.readl (pollSt regfile (0 + 1)
      (regfile.writel (pollSt regfile (0 + 1) s.hw) (char_to_u32 cs b) 0x00)) 0x00).1 &&& 0xFF
      = b := by
    simpa [pollSt, regfile] using and_255_char_to_u32 cs b hb
  rw [hv] at e2
  rw [e2]
  simp

/-- Instance of C6: byte 200 (negative as a signed `char`) written with sign
extension and read back. -/
theorem loopback_round_trip_witness :
    (uart_write regfile true 1 (Driver.init loopbackRegs) loopbackMem 7 1).ret = some 1 ∧
    (uart_read regfile 1 (uart_write regfile true 1 (Driver.init loopbackRegs) loopbackMem 7 1).st
      (uart_write regfile true 1 (Driver.init loopbackRegs) loopbackMem 7 1).um 9 1).ret
        = some 1 ∧
    (uart_read regfile 1 (uart_write regfile true 1 (Driver.init loopbackRegs) loopbackMem 7 1).st
      (uart_write regfile true 1 (Driver.init loopbackRegs) loopbackMem 7 1).um 9 1).um 9
        = some 200 :=
  have h := loopback_round_trip true 200 (Driver.init loopbackRegs) loopbackMem 7 9 1 1 1 1
    (by decide) rfl (by decide) (by decide) (by decide) (by decide) (by decide) (by decide)
  ⟨h.1, h.2.1, h.2.2.1⟩

/-! ## C7: diagnostic text after a write -/

/-- C7: after a `uart_write` that returned 1 for the non-NUL byte `c`, `log_show`
yields exactly "Wrote char: " followed by `c` and one newline (14 bytes), the
record holds the untruncated 13-byte text, and in the state right after load
`log_show` yields "No messages." followed by a newline. -/
theorem log_show_after_write {σ : Type} (D : Device σ) (cs : Bool) (fuel : Nat) (s : Driver σ)
    (um : UserMem) (buf len c : Nat) (hsrc : um buf = some c) (hc : c ≠ 0)
    (hok : (uart_write D cs fuel s um buf len).ret = some 1) :
    (log_show (uart_write D cs fuel s um buf len).st).2 = ascii "Wrote char: " ++ [c] ++ [10] ∧
    (log_show (uart_write D cs fuel s um buf len).st).1 = 14 ∧
    cstr (uart_write D cs fuel s um buf len).st.last_msg = ascii "Wrote char: " ++ [c] ∧
    ∀ h : σ, (log_show (Driver.init h)).2 = ascii "No messages." ++ [10] := by
  have hmsg : (uart_write D cs fuel s um buf len).st.last_msg
      = snprintf s.last_msg 100 (ascii "Wrote char: " ++ [c]) := by
    unfold uart_write at hok ⊢
    simp only [copy_from_user, hsrc] at hok ⊢
    split at hok
    · simp at hok
    · split at hok
      · rename_i h1 h2
        simp [h1, h2]
      · simp at hok
  have hcs : cstr (snprintf s.last_msg 100 (ascii "Wrote char: " ++ [c]))
      = ascii "Wrote char: " ++ [c] := by
    have hne : (c != 0) = true := by simpa using hc
    simp [cstr, snprintf, ascii, List.takeWhile, hne]
  refine ⟨?_, ?_, ?_, fun h => ?_⟩
  · rw [log_show, hmsg, hcs]
    simp [ascii, PAGE_SIZE]
  · rw [log_show, hmsg, hcs]
    simp [ascii]
  · rw [hmsg, hcs]
  · rfl

/-- Instance of C7: after writing 'A' the diagnostic text is "Wrote char: A"
followed by a newline. -/
theorem log_show_after_write_witness :
    (log_show (uart_write scripted false 3 (Driver.init demoScript) demoMem 7 1).st).2
      = ascii "Wrote char: A" ++ [10] :=
  (log_show_after_write scripted false 3 (Driver.init demoScript) demoMem 7 1 65
    (by decide) (by decide) (by decide)).1

/-! ## C8: diagnostic text after a reset -/

/-- C8 as stated fails: after a successful Reset in the freshly loaded state the
text returned by `log_show` does not contain "Reset performed" (the record
holds "UART reset performed.", with a lower-case r). -/
theorem reset_text_counterexample :
    (uart_ioctl scripted (Driver.init demoScript) UART_IOCTL_RESET 0).ret = 0 ∧
    ¬ (ascii "Reset performed" <:+:
        (log_show (uart_ioctl scripted (Driver.init demoScript) UART_IOCTL_RESET 0).st).2) := by
  decide

/-- C8, amended: in every driver state the Reset command returns 0 and afterwards
`log_show` returns exactly "UART reset performed." followed by a newline, which
contains the substring "reset performed". -/
theorem reset_text {σ : Type} (D : Device σ) (s : Driver σ) (arg : Nat) :
    (uart_ioctl D s UART_IOCTL_RESET arg).ret = 0 ∧
    (log_show (uart_ioctl D s UART_IOCTL_RESET arg).st).2
      = ascii "UART reset performed." ++ [10] ∧
    ascii "reset performed" <:+: (log_show (uart_ioctl D s UART_IOCTL_RESET arg).st).2 := by
  have htext : (log_show (uart_ioctl D s UART_IOCTL_RESET arg).st).2
      = ascii "UART reset performed." ++ [10] := by
    simp [uart_ioctl, log_show, cstr, snprintf, ascii, List.takeWhile, PAGE_SIZE]
  refine ⟨by simp [uart_ioctl], htext, ?_⟩
  rw [htext]
  decide

/-! ## C9: failure during module load -/

/-- C9 fails on the code: when `cdev_add` fails after `alloc_chrdev_region` has
succeeded, `uart_init` returns -1 while the device-number region is still held. -/
theorem uart_init_leaks_region :
    (uart_init scripted hostCdevAddFails [] (Driver.init demoScript)).ret = -1 ∧
    (uart_init scripted hostCdevAddFails [] (Driver.init demoScript)).held
      = [Resource.chrdev_region] ∧
    (uart_init scripted hostCdevAddFails [] (Driver.init demoScript)).held ≠ [] := by
  decide

/-- No path of `uart_init` releases anything: the resources held on return are
those held on entry followed by the ones acquired, and at least one was acquired
as soon as `alloc_chrdev_region` succeeded. -/
theorem uart_init_never_releases {σ : Type} (D : Device σ) (host : Host)
    (held : List Resource) (s : Driver σ) :
    ∃ l, (uart_init D host held s).held = held ++ l ∧
      (0 ≤ host.alloc_chrdev_region → l ≠ []) := by
  unfold uart_init
  split
  · exact ⟨[], by simp, fun h => by omega⟩
  · split
    · exact ⟨[Resource.chrdev_region], by simp, by simp⟩
    · split
      · exact ⟨[Resource.chrdev_region, Resource.cdev], by simp, by simp⟩
      · split
        · exact ⟨[Resource.chrdev_region, Resource.cdev, Resource.uart_class], by simp, by simp⟩
        · split
          · exact ⟨[Resource.chrdev_region, Resource.cdev, Resource.uart_class,
              Resource.uart_device], by simp, by simp⟩
          · split
            · exact ⟨[Resource.chrdev_region, Resource.cdev, Resource.uart_class,
                Resource.uart_device, Resource.attr_log], by simp, by simp⟩
            · exact ⟨[Resource.chrdev_region, Resource.cdev, Resource.uart_class,
                Resource.uart_device, Resource.attr_log, Resource.mapping], by simp, by simp⟩

/-- The return value of `uart_init` is 0 exactly when every step succeeds. -/
theorem uart_init_ret_zero_iff {σ : Type} (D : Device σ) (host : Host)
    (held : List Resource) (s : Driver σ) :
    (uart_init D host held s).ret = 0 ↔
      (0 ≤ host.alloc_chrdev_region ∧ 0 ≤ host.cdev_add ∧ IS_ERR host.class_create = false ∧
        IS_ERR host.device_create = false ∧ host.device_create_file = 0 ∧ host.ioremap ≠ 0) := by
  unfold uart_init
  by_cases h1 : host.alloc_chrdev_region < 0
  · simp [h1]
  by_cases h2 : host.cdev_add < 0
  · simp [h1, h2]
  by_cases h3 : IS_ERR host.class_create = true
  · have : host.class_create ≠ 0 := by
      intro h0
      rw [h0] at h3
      exact absurd h3 (by decide)
    simp [h1, h2, h3, PTR_ERR, this]
  by_cases h4 : IS_ERR host.device_create = true
  · have : host.device_create ≠ 0 := by
      intro h0
      rw [h0] at h4
      exact absurd h4 (by decide)
    simp [h1, h2, h3, h4, PTR_ERR, this]
  by_cases h5 : host.device_create_file = 0
  · by_cases h6 : host.ioremap = 0
    · simp [h1, h2, h3, h4, h5, h6, ENOMEM]
    · simp only [Bool.not_eq_true] at h3 h4
      simp [h1, h2, h3, h4, h5, h6]
      exact ⟨by omega, by omega⟩
  · simp [h1, h2, h3, h4, h5]

/-- The sibling driver's load function releases the device-number region when
`cdev_add` returns -1. -/
theorem my_driver_init_unwinds (host : Host) (held : List Resource)
    (h1 : 0 ≤ host.alloc_chrdev_region) (h2 : host.cdev_add = -1) :
    my_driver_init host held = (-1, held) := by
  have : ¬ host.alloc_chrdev_region < 0 := by omega
  simp [my_driver_init, this, h2]

/-- The sibling's check is `== -1`: a `cdev_add` failure with another code, here
`-ENOMEM`, is taken for success, with the region held and no cdev added. -/
theorem my_driver_init_other_failure :
    my_driver_init hostCdevAddFails [] = (0, [Resource.chrdev_region]) := by
  decide

/-! ## C10: what happens while the lock is held -/

/-- C10 as stated fails: in a run of `uart_read`, and in a run of `uart_write`,
on the scripted hardware a `printk` occurs between the lock acquire and the
release. -/
theorem held_section_counterexample :
    ¬ (∀ e ∈ heldEvents false (uart_read scripted 3 (Driver.init demoScript) demoMem 7 1).events,
        isLog e = false ∧ isUserCopy e = false) ∧
    ¬ (∀ e ∈ heldEvents false
          (uart_write scripted false 3 (Driver.init demoScript) demoMem 7 1).events,
        isLog e = false ∧ isUserCopy e = false) := by
  decide

/-- C10, amended: for every run of `uart_read` and `uart_write`, finished or still
spinning, the events performed while the lock is held are: one `printk` (the
"Acquired spinlock" message) right after the acquire, then status polls only,
then at most one access of the data register.  In particular no user-memory copy
happens while the lock is held. -/
theorem held_section_shape {σ : Type} (D : Device σ) (cs : Bool) (fuel : Nat) (s : Driver σ)
    (um : UserMem) (buf len : Nat) :
    (heldEvents false (uart_read D fuel s um buf len).events = [] ∨
      ∃ polls data, heldEvents false (uart_read D fuel s um buf len).events
          = Event.printk .read_acquired :: (polls ++ data) ∧
        (∀ e ∈ polls, ∃ v, e = Event.readl 0x18 v) ∧
        (data = [] ∨ ∃ v, data = [Event.readl 0x00 v])) ∧
    (heldEvents false (uart_write D cs fuel s um buf len).events = [] ∨
      ∃ polls data, heldEvents false (uart_write D cs fuel s um buf len).events
          = Event.printk .write_acquired :: (polls ++ data) ∧
        (∀ e ∈ polls, ∃ v, e = Event.readl 0x18 v) ∧
        (data = [] ∨ ∃ v, data = [Event.writel v 0x00])) ∧
    (∀ e ∈ heldEvents false (uart_read D fuel s um buf len).events, isUserCopy e = false) ∧
    (∀ e ∈ heldEvents false (uart_write D cs fuel s um buf len).events,
      isUserCopy e = false) := by
  have hr : heldEvents false (uart_read D fuel s um buf len).events = [] ∨
      ∃ polls data, heldEvents false (uart_read D fuel s um buf len).events
          = Event.printk .read_acquired :: (polls ++ data) ∧
        (∀ e ∈ polls, ∃ v, e = Event.readl 0x18 v) ∧
        (data = [] ∨ ∃ v, data = [Event.readl 0x00 v]) := by
    have hp := spin_events_polls D rx_wait fuel s.hw
    unfold uart_read
    cases hl : s.uart_lock
    · right
      cases hd : (spin D rx_wait fuel s.hw).done
      · refine ⟨(spin D rx_wait fuel s.hw).events, [], ?_, hp, Or.inl rfl⟩
        have := heldEvents_polls (spin D rx_wait fuel s.hw).events [] hp
        simp [heldEvents] at this
        simp [hd, heldEvents, this]
      · refine ⟨(spin D rx_wait fuel s.hw).events,
          [Event.readl 0x00 (D.readl (spin D rx_wait fuel s.hw).hw 0x00).1], ?_, hp,
          Or.inr ⟨_, rfl⟩⟩
        cases hc : copy_to_user um buf ((D.readl (spin D rx_wait fuel s.hw).hw 0x00).1 &&& 0xFF)
        · simp [hd, hc, heldEvents, heldEvents_polls _ _ hp]
        · simp [hd, hc, heldEvents, heldEvents_polls _ _ hp]
    · left
      simp [heldEvents]
  have hw : heldEvents false (uart_write D cs fuel s um buf len).events = [] ∨
      ∃ polls data, heldEvents false (uart_write D cs fuel s um buf len).events
          = Event.printk .write_acquired :: (polls ++ data) ∧
        (∀ e ∈ polls, ∃ v, e = Event.readl 0x18 v) ∧
        (data = [] ∨ ∃ v, data = [Event.writel v 0x00]) := by
    have hp := spin_events_polls D tx_wait fuel s.hw
    unfold uart_write
    cases hc : copy_from_user um buf with
    | none => left; simp [heldEvents]
    | some ch =>
      cases hl : s.uart_lock
      · right
        cases hd : (spin D tx_wait fuel s.hw).done
        · refine ⟨(spin D tx_wait fuel s.hw).events, [], ?_, hp, Or.inl rfl⟩
          have := heldEvents_polls (spin D tx_wait fuel s.hw).events [] hp
          simp [heldEvents] at this
          simp [hd, heldEvents, this]
        · refine ⟨(spin D tx_wait fuel s.hw).events,
            [Event.writel (char_to_u32 cs ch) 0x00], ?_, hp, Or.inr ⟨_, rfl⟩⟩
          simp [hd, heldEvents, heldEvents_polls _ _ hp]
      · left
        simp [heldEvents]
  have hcopy : ∀ (l : List Event) (a : Event),
      (l = [] ∨ ∃ polls data, l = a :: (polls ++ data) ∧
        (∀ e ∈ polls, ∃ v, e = Event.readl 0x18 v) ∧
        (data = [] ∨ (∃ v, data = [Event.readl 0x00 v]) ∨ ∃ v, data = [Event.writel v 0x00])) →
      isUserCopy a = false → ∀ e ∈ l, isUserCopy e = false := by
    intro l a h ha e he
    rcases h with h | ⟨polls, data, h, hpolls, hdata⟩
    · rw [h] at he
      simp at he
    · rw [h] at he
      simp only [List.mem_cons, List.mem_append] at he
      rcases he with he | he | he
      · rw [he]; exact ha
      · obtain ⟨v, rfl⟩ := hpolls e he
        rfl
      · rcases hdata with hd | ⟨v, hd⟩ | ⟨v, hd⟩
        · rw [hd] at he; simp at he
        · rw [hd] at he
          simp only [List.mem_singleton] at he
          rw [he]; rfl
        · rw [hd] at he
          simp only [List.mem_singleton] at he
          rw [he]; rfl
  refine ⟨hr, hw, ?_, ?_⟩
  · refine hcopy _ (Event.printk .read_acquired) ?_ rfl
    rcases hr with h | ⟨p, d, h1, h2, h3⟩
    · exact Or.inl h
    · exact Or.inr ⟨p, d, h1, h2, h3.imp id Or.inl⟩
  · refine hcopy _ (Event.printk .write_acquired) ?_ rfl
    rcases hw with h | ⟨p, d, h1, h2, h3⟩
    · exact Or.inl h
    · exact Or.inr ⟨p, d, h1, h2, h3.imp id Or.inr⟩

end UartDriver
